import Mathlib

/-!
Verification development for the pybold blind-deconvolution package.

The numeric arrays of the source are embedded as lists of rationals
(exact arithmetic in place of floating point).  Code of the package that
lives under src (bold_signal.py, utils.py) is translated directly;
components of the package that are imported but whose files are absent
(linear.py, gradient.py, proximity.py, solvers.py, hrf_model.py) are
modelled from the specification document, and external libraries
(pywt, scipy optimizers, the solver results) are treated as black-box
parameters of the embedding.
-/

namespace Pybold

/-- A signal: an ordered sequence of rational samples. -/
abbrev Vec := List ℚ

/-- Elementwise subtraction of two signals (numpy a - b on equal-length arrays). -/
def vsub (a b : Vec) : Vec := List.zipWith (fun s t => s - t) a b

/-- np.sum(np.square(a)). -/
def sumSq (a : Vec) : ℚ := (a.map (fun t => t ^ 2)).sum

/-- np.sum(np.abs(a)). -/
def sumAbs (a : Vec) : ℚ := (a.map (fun t => |t|)).sum

/-- np.mean of a list (sum divided by length; division by zero yields 0). -/
def meanQ (l : List ℚ) : ℚ := l.sum / (l.length : ℚ)

/-- np.median: sort, take the middle element (odd length) or the average of
the two middle elements (even length).  The empty list is sent to 0. -/
def medianQ (l : List ℚ) : ℚ :=
  let s := l.insertionSort (fun a b => a ≤ b)
  let n := l.length
  if n = 0 then 0
  else if n % 2 = 1 then s.getD (n / 2) 0
  else (s.getD (n / 2 - 1) 0 + s.getD (n / 2) 0) / 2

/-- utils.mad: median absolute deviation scaled by c,
median(abs(x - median(x))) / c. -/
def mad (x : List ℚ) (c : ℚ) : ℚ :=
  medianQ (x.map (fun t => |t - medianQ x|)) / c

/-- The default scaling constant c = 0.6744 of utils.mad. -/
def madC : ℚ := 6744 / 10000

/-- utils.mad_daub_noise_est: apply the one-level db3 wavelet decomposition
(pywt.wavedec, an external library, here the black-box parameter w1 returning
approximation and detail coefficients or a ValueError); on success take the
detail coefficients cD, on ValueError fall back to the level-0 decomposition
(black-box parameter w0); return mad of the chosen coefficients. -/
def mad_daub_noise_est (w1 : Vec → Except Unit (Vec × Vec)) (w0 : Vec → Vec)
    (x : Vec) (c : ℚ) : ℚ :=
  match w1 x with
  | Except.ok p => mad p.2 c
  | Except.error _ => mad (w0 x) c

/-- Modelled from the spec: linear.py is absent from the sources.
DiscretInteg.op, per spec 4.1, is the running (inclusive) cumulative sum. -/
def cumSum (x : Vec) : Vec :=
  (List.range x.length).map (fun n => (x.take (n + 1)).sum)

/-- Modelled from the spec: linear.py is absent from the sources.
Conv(kernel, N).op, per spec 4.1, is the linear convolution of the fixed
kernel with the input, truncated or padded to length N
(entry n is the sum over i of kernel i times input (n - i)). -/
def truncConv (k x : Vec) (N : ℕ) : Vec :=
  (List.range N).map (fun n =>
    ((List.range (n + 1)).map (fun i => k.getD i 0 * x.getD (n - i) 0)).sum)

/-- Modelled from the spec: linear.py is absent from the sources.
ConvAndLinear(Integ, hrf, N, N).op, per spec 4.1 composition, convolves the
kernel with the integrated input. -/
def Hop (hrf : Vec) (N : ℕ) (x : Vec) : Vec := truncConv hrf (cumSum x) N

/-- Modelled from the spec: gradient.py is absent from the sources.
grad.residual(x), per spec 4.2, is the residual sum Σ(H(x) - y)² for the
composed operator H built from the current kernel. -/
def residual (hrf : Vec) (y : Vec) (x : Vec) : ℚ :=
  sumSq (vsub (Hop hrf y.length x) y)

/-- Modelled from the spec: proximity.py is absent from the sources.
L1Norm(lbda).op(x, step), per spec 4.3, is the componentwise soft threshold
sign(x) * max(abs(x) - lbda*step, 0). -/
def L1Norm_op (lbda : ℚ) (x : Vec) (step : ℚ) : Vec :=
  x.map (fun t => if t > 0 then max (t - lbda * step) 0
                  else if t < 0 then -(max (-t - lbda * step) 0) else 0)

/-- The constant 1.0e-30 added to the normalized cost entries. -/
def eps30 : ℚ := 1 / 10 ^ 30

/-- The constant 1.0e-10 added to the inner-loop stopping denominator. -/
def eps10 : ℚ := 1 / 10 ^ 10

/-- The fixed learning rate mu = 1.0e-2 of blind_deconvolution for the alpha update. -/
def muBD : ℚ := 1 / 100

/-- The fixed learning rate mu = 5.0e-3 of deconvolution for the alpha update. -/
def muDC : ℚ := 5 / 1000

/-- Python list slicing l[:-k] (all but the last k entries; empty when k = 0,
matching Python where l[:-0] is l[:0]). -/
def pyDropLast {α : Type} (l : List α) (k : ℕ) : List α :=
  if k = 0 then [] else l.take (l.length - k)

/-- Python list slicing l[-k:] (the last k entries; the whole list when k = 0,
matching Python where l[-0:] is l[0:]). -/
def pyLastK {α : Type} (l : List α) (k : ℕ) : List α :=
  if k = 0 then l else l.drop (l.length - k)

/-- The outer early-stopping test of blind_deconvolution (and bd): eligible
once idx > wind; compares the mean of the trace with its last wind/2 entries
removed against the mean of the last wind/2 entries, using the signed
relative change (new - old) / new, and fires when it is below tol. -/
def outerBreak (J : List ℚ) (idx wind : ℕ) (tol : ℚ) : Bool :=
  decide (idx > wind) &&
    decide ((meanQ (pyLastK J (wind / 2)) - meanQ (pyDropLast J (wind / 2))) /
      meanQ (pyLastK J (wind / 2)) < tol)

/-- The inner sub-loop early-stopping test of blind_deconvolution: eligible
once j > 2; absolute relative change of the sliding alpha window, threshold
hard-coded to 1.0e-2. -/
def innerBreak (lAlpha : List ℚ) (j wind : ℕ) : Bool :=
  decide (j > 2) &&
    decide (|meanQ (pyLastK lAlpha (wind / 2)) - meanQ (pyDropLast lAlpha (wind / 2))| /
      (|meanQ (pyLastK lAlpha (wind / 2))| + eps10) < 1 / 100)

/-- The inputs of blind_deconvolution that the embedded driver consumes.
The solver results (solvers.py is absent from the sources), the kernel model
(hrf_model.py is absent) and the scipy bounded optimizer (external library)
are black-box parameters; the solver takes the current kernel, the proximity
operator it is given, the initial point and its iteration budget. -/
structure DParams where
  y : Vec
  hrf_func : Vec → Vec
  solver : Vec → (Vec → ℚ → Vec) → Vec → ℕ → Vec
  optimizer : Vec → Vec → Vec
  lbdaArg : Option ℚ
  sigmaArg : Option ℚ
  w1 : Vec → Except Unit (Vec × Vec)
  w0 : Vec → Vec
  theta0 : Vec
  initIS : Option Vec
  nbIter : ℕ
  earlyStop : Bool
  wind : ℕ
  tol : ℚ

/-- The mutable state of the blind_deconvolution loop. -/
structure DState where
  est_i_s : Vec
  est_ai_s : Vec
  est_ar_s : Vec
  theta : Vec
  hrf : Vec
  alpha : ℚ
  lbda : ℚ
  lAlpha : List ℚ
  J : List ℚ
  rTr : List ℚ
  gTr : List ℚ
  j0 : ℚ
  r0 : ℚ
deriving DecidableEq

/-- The state of the auto-lambda inner sub-loop of blind_deconvolution. -/
structure InnerSt where
  alpha : ℚ
  lbda : ℚ
  lAlpha : List ℚ
  stopped : Bool
deriving DecidableEq

/-- blind_deconvolution line 367: sigma is the caller-supplied value when
given, and the mad_daub_noise_est estimate of the observed signal otherwise. -/
def resolveSigma (p : DParams) : ℚ :=
  p.sigmaArg.getD (mad_daub_noise_est p.w1 p.w0 p.y madC)

/-- One iteration of the auto-lambda inner sub-loop of blind_deconvolution
(lines 485-521, prints omitted): set lbda = 1/(2 alpha), run the solver with
the L1 proximity operator at that lbda (budget 1000), update
alpha += mu * (residual(x) - N * sigma^2), append alpha to the sliding
window (trimmed to wind entries), then evaluate the early-stopping test. -/
def innerStepP (p : DParams) (hrf : Vec) (sigma : ℚ) (v0 : Vec) (j : ℕ)
    (s : InnerSt) : InnerSt :=
  let lbda := 1 / (2 * s.alpha)
  let x := p.solver hrf (L1Norm_op lbda) v0 1000
  let alpha := s.alpha + muBD * (residual hrf p.y x - (p.y.length : ℚ) * sigma ^ 2)
  let lA0 := s.lAlpha ++ [alpha]
  let lA := if lA0.length > p.wind then lA0.drop 1 else lA0
  let stop := p.earlyStop && innerBreak lA j p.wind
  { alpha := alpha, lbda := lbda, lAlpha := lA, stopped := stop }

/-- The auto-lambda inner sub-loop: iterate innerStepP until the budget is
exhausted or the early-stopping test fired. -/
def innerLoopP (p : DParams) (hrf : Vec) (sigma : ℚ) (v0 : Vec) :
    ℕ → ℕ → InnerSt → InnerSt
  | 0, _, s => s
  | fuel + 1, j, s =>
    let s' := innerStepP p hrf sigma v0 j s
    if s'.stopped then s' else innerLoopP p hrf sigma v0 fuel (j + 1) s'

/-- The inner sub-loop iteration budget of blind_deconvolution
(nb_iter_deconv, re-assigned to 500 at line 384). -/
def nbIterDeconv : ℕ := 500

/-- One outer iteration of blind_deconvolution (lines 476-588, prints and
plotting omitted): sparse recovery (auto-lambda inner sub-loop followed by a
budget-5000 solver call, or a single budget-5000 solver call at the fixed
lambda), derivation of the integrated and convolved signals, kernel re-fit,
recomputation of the convolved signal with the new kernel, cost bookkeeping,
and the outer early-stopping test. -/
def bodyCore (p : DParams) (sigma : ℚ) (idx : ℕ) (s : DState) : DState × Bool :=
  let N := p.y.length
  let s1 :=
    if p.lbdaArg.isNone then
      let v0 := s.est_i_s
      let is0 : InnerSt := ⟨s.alpha, s.lbda, s.lAlpha, false⟩
      let isf := innerLoopP p s.hrf sigma v0 nbIterDeconv 0 is0
      let xi := p.solver s.hrf (L1Norm_op (1 / (2 * isf.alpha))) v0 5000
      { s with est_i_s := xi, alpha := isf.alpha, lbda := isf.lbda,
               lAlpha := isf.lAlpha }
    else
      { s with est_i_s := p.solver s.hrf (L1Norm_op s.lbda) s.est_i_s 5000 }
  let s2 := { s1 with est_ai_s := cumSum s1.est_i_s,
                      est_ar_s := truncConv s1.hrf (cumSum s1.est_i_s) N }
  let theta := p.optimizer s2.est_ai_s s2.theta
  let hrf := p.hrf_func theta
  let s3 := { s2 with theta := theta, hrf := hrf,
                      est_ar_s := truncConv hrf s2.est_ai_s N }
  let r := sumSq (vsub s3.est_ar_s p.y)
  let g := sumAbs s3.est_i_s
  let s4 := { s3 with J := s3.J ++ [(r + s3.lbda * g) / s3.j0 + eps30],
                      rTr := s3.rTr ++ [r / s3.r0 + eps30],
                      gTr := s3.gTr ++ [g] }
  (s4, p.earlyStop && outerBreak s4.J idx p.wind p.tol)

/-- The outer loop of blind_deconvolution; returns the final state together
with the list of states at the end of every executed outer iteration. -/
def outerLoop (p : DParams) (sigma : ℚ) :
    ℕ → ℕ → DState → DState × List DState
  | 0, _, s => (s, [])
  | fuel + 1, idx, s =>
    let sb := bodyCore p sigma idx s
    if sb.2 then (sb.1, [sb.1])
    else
      let rest := outerLoop p sigma fuel (idx + 1) sb.1
      (rest.1, sb.1 :: rest.2)

/-- The final high-budget deconvolution of blind_deconvolution
(lines 592-619): one budget-10000 solver call from the zero initial point at
the lambda variable of the driver, then the integrated and convolved signals and
the final cost entries (appended without the 1.0e-30 term). -/
def finalPhase (p : DParams) (s : DState) : DState :=
  let N := p.y.length
  let xi := p.solver s.hrf (L1Norm_op s.lbda) (List.replicate N 0) 10000
  let ai := cumSum xi
  let ar := truncConv s.hrf ai N
  let r := sumSq (vsub ar p.y)
  let g := sumAbs xi
  { s with est_i_s := xi, est_ai_s := ai, est_ar_s := ar,
           J := s.J ++ [(r + s.lbda * g) / s.j0],
           rTr := s.rTr ++ [r / s.r0],
           gTr := s.gTr ++ [g] }

/-- The initialization of blind_deconvolution (lines 357-399): build the
initial kernel, resolve lambda (1/(2*1) in auto mode), set the initial
signals from init_i_s or zeros, and record the initial cost quantities. -/
def initState (p : DParams) : DState :=
  let N := p.y.length
  let hrf := p.hrf_func p.theta0
  let lbda := p.lbdaArg.getD (1 / 2)
  let i0 := p.initIS.getD (List.replicate N 0)
  let ai0 := match p.initIS with
    | none => List.replicate N 0
    | some v => cumSum v
  let ar0 := match p.initIS with
    | none => List.replicate N 0
    | some v => truncConv hrf (cumSum v) N
  let r0 := sumSq (vsub ar0 p.y)
  let g0 := sumAbs i0
  { est_i_s := i0, est_ai_s := ai0, est_ar_s := ar0,
    theta := p.theta0, hrf := hrf, alpha := 1, lbda := lbda,
    lAlpha := [], J := [1], rTr := [1], gTr := [g0],
    j0 := r0 + lbda * g0, r0 := r0 }

/-- blind_deconvolution (lines 338-625, prints and plotting omitted): the
noise level sigma is resolved only in auto-lambda mode, the outer loop runs
for nb_iter iterations or until the early-stopping test fires, and the final
high-budget deconvolution produces the returned state. -/
def blindDeconvRun (p : DParams) : DState :=
  let sigma := if p.lbdaArg.isNone then resolveSigma p else 0
  let s0 := initState p
  finalPhase p (outerLoop p sigma p.nbIter 0 s0).1

/-- The states at the end of every executed outer iteration of
blind_deconvolution. -/
def blindDeconvTrace (p : DParams) : List DState :=
  let sigma := if p.lbdaArg.isNone then resolveSigma p else 0
  (outerLoop p sigma p.nbIter 0 (initState p)).2

/-- True exactly on the error constructor of Except. -/
def isErr {ε α : Type} : Except ε α → Bool
  | Except.error _ => true
  | Except.ok _ => false

/-- The kernel-model validation of blind_deconvolution (lines 346-355):
when the parameter vector, the model function and the model constants are
all unspecified, internal defaults are substituted; when only some of them
are unspecified, a ValueError is raised; otherwise the supplied triple is
used. -/
def hrfModelInit {P F C : Type} (defP : P) (defF : F) (defC : C) :
    Option P → Option F → Option C → Except String (P × F × C)
  | none, none, none => Except.ok (defP, defF, defC)
  | some pa, some fu, some co => Except.ok (pa, fu, co)
  | _, _, _ => Except.error "Please specify properly the HRF model"

/-- Python indexing l[j] for a non-negative j: the element, or an IndexError
when j is out of range. -/
def pyIndex (l : List ℚ) (j : ℕ) : Except Unit ℚ :=
  match l.get? j with
  | some q => Except.ok q
  | none => Except.error ()

/-- The print-faithful variant of the auto-lambda inner sub-loop: the state
evolves exactly as in innerLoopP, but when the early-stopping test fires and
verbose > 1 the break diagnostic formats the cost trace entry J[j] indexed by
the inner counter j (blind_deconvolution line 520), which is an IndexError
when j is out of range of the trace. -/
def innerLoopV (p : DParams) (hrf : Vec) (sigma : ℚ) (v0 : Vec) (J : List ℚ)
    (verbose : ℤ) : ℕ → ℕ → InnerSt → Except Unit InnerSt
  | 0, _, s => Except.ok s
  | fuel + 1, j, s =>
    let s' := innerStepP p hrf sigma v0 j s
    if s'.stopped then
      if verbose > 1 then (pyIndex J j).map (fun _ => s') else Except.ok s'
    else innerLoopV p hrf sigma v0 J verbose fuel (j + 1) s'

/-- The print-faithful variant of one outer iteration of blind_deconvolution:
as bodyCore, except that the break diagnostic of the inner sub-loop can raise an
IndexError (propagated).  The remaining prints of the function index the
trace safely (the last entry, or entry idx when the trace has idx+2 entries)
and are omitted since they cannot fail or alter the state. -/
def bodyCoreV (p : DParams) (sigma : ℚ) (verbose : ℤ) (idx : ℕ)
    (s : DState) : Except Unit (DState × Bool) :=
  let N := p.y.length
  let s1E : Except Unit DState :=
    if p.lbdaArg.isNone then
      let v0 := s.est_i_s
      let is0 : InnerSt := ⟨s.alpha, s.lbda, s.lAlpha, false⟩
      (innerLoopV p s.hrf sigma v0 s.J verbose nbIterDeconv 0 is0).map
        (fun isf =>
          let xi := p.solver s.hrf (L1Norm_op (1 / (2 * isf.alpha))) v0 5000
          { s with est_i_s := xi, alpha := isf.alpha, lbda := isf.lbda,
                   lAlpha := isf.lAlpha })
    else
      Except.ok { s with est_i_s := p.solver s.hrf (L1Norm_op s.lbda) s.est_i_s 5000 }
  s1E.map (fun s1 =>
    let s2 := { s1 with est_ai_s := cumSum s1.est_i_s,
                        est_ar_s := truncConv s1.hrf (cumSum s1.est_i_s) N }
    let theta := p.optimizer s2.est_ai_s s2.theta
    let hrf := p.hrf_func theta
    let s3 := { s2 with theta := theta, hrf := hrf,
                        est_ar_s := truncConv hrf s2.est_ai_s N }
    let r := sumSq (vsub s3.est_ar_s p.y)
    let g := sumAbs s3.est_i_s
    let s4 := { s3 with J := s3.J ++ [(r + s3.lbda * g) / s3.j0 + eps30],
                        rTr := s3.rTr ++ [r / s3.r0 + eps30],
                        gTr := s3.gTr ++ [g] }
    (s4, p.earlyStop && outerBreak s4.J idx p.wind p.tol))

/-- The print-faithful outer loop of blind_deconvolution. -/
def outerLoopV (p : DParams) (sigma : ℚ) (verbose : ℤ) :
    ℕ → ℕ → DState → Except Unit DState
  | 0, _, s => Except.ok s
  | fuel + 1, idx, s =>
    match bodyCoreV p sigma verbose idx s with
    | Except.error e => Except.error e
    | Except.ok (s', brk) =>
      if brk then Except.ok s' else outerLoopV p sigma verbose fuel (idx + 1) s'

/-- The print-faithful blind_deconvolution run: identical to blindDeconvRun
except that the verbose-gated break diagnostic of the inner sub-loop can
raise an IndexError, aborting the whole call. -/
def blindDeconvRunV (p : DParams) (verbose : ℤ) : Except Unit DState :=
  let sigma := if p.lbdaArg.isNone then resolveSigma p else 0
  (outerLoopV p sigma verbose p.nbIter 0 (initState p)).map (finalPhase p)

/-- The inputs of deconvolution.  The solver (solvers.py is absent from the
sources) is a black-box parameter returning the iterate and its own cost
trace; the observed signal, kernel and configuration are as in the source. -/
structure CParams where
  y : Vec
  hrf : Vec
  lbdaArg : Option ℚ
  w1 : Vec → Except Unit (Vec × Vec)
  w0 : Vec → Vec
  solver : (Vec → ℚ → Vec) → Vec → ℕ → Vec × List ℚ
  nbIter : ℕ
  earlyStop : Bool
  tol : ℚ
  wind : ℤ

/-- The outputs of deconvolution: the convolved, integrated and innovation
signals, the cost trace, and (in auto-lambda mode) the residual and sparsity
traces. -/
structure COut where
  est_ar_s : Vec
  est_ai_s : Vec
  est_i_s : Vec
  J : List ℚ
  R : Option (List ℚ)
  G : Option (List ℚ)
deriving DecidableEq

/-- The loop state of the auto-lambda main loop of deconvolution. -/
structure CSt where
  alpha : ℚ
  lAlpha : List ℚ
  J : List ℚ
  R : List ℚ
  G : List ℚ
  stopped : Bool
deriving DecidableEq

/-- One iteration of the auto-lambda main loop of deconvolution (lines 94-140,
prints omitted): lbda = 1/(2 alpha), a budget-999 solver call at that lbda,
the alpha update with mu = 5.0e-3, the sliding alpha window, the metric
appends (the cost entry 0.5*r + lbda*g uses the lbda recomputed from the
updated alpha), and the early-stopping test (no epsilon in the
denominator). -/
def cStep (p : CParams) (sigma : ℚ) (v0 : Vec) (i : ℕ) (s : CSt) : CSt :=
  let lbda := 1 / (2 * s.alpha)
  let x := (p.solver (L1Norm_op lbda) v0 999).1
  let alpha := s.alpha +
    muDC * (residual p.hrf p.y x - (p.y.length : ℚ) * sigma ^ 2)
  let lA0 := s.lAlpha ++ [alpha]
  let lA := if (lA0.length : ℤ) > p.wind then lA0.drop 1 else lA0
  let r := residual p.hrf p.y x
  let g := sumAbs x
  let lbda2 := 1 / (2 * alpha)
  let stop := p.earlyStop && (decide ((i : ℤ) > p.wind) &&
    (let swl := (p.wind / 2).toNat
     let old_it := meanQ (pyDropLast lA swl)
     let new_it := meanQ (pyLastK lA swl)
     decide (|new_it - old_it| / |new_it| < p.tol)))
  { alpha := alpha, lAlpha := lA, J := s.J ++ [1 / 2 * r + lbda2 * g],
    R := s.R ++ [r], G := s.G ++ [g], stopped := stop }

/-- The auto-lambda main loop of deconvolution. -/
def cLoop (p : CParams) (sigma : ℚ) (v0 : Vec) : ℕ → ℕ → CSt → CSt
  | 0, _, s => s
  | fuel + 1, i, s =>
    let s' := cStep p sigma v0 i s
    if s'.stopped then s' else cLoop p sigma v0 fuel (i + 1) s'

/-- The body of deconvolution past the wind validation (lines 62-154):
fixed-lambda mode runs one solver call and returns its cost trace; auto
lambda mode estimates sigma with mad_daub_noise_est, runs the main loop from
the zero initial point, and finishes with a budget-9999 solver call at the
final lbda = 1/(2 alpha). -/
def deconvBody (p : CParams) : COut :=
  let N := p.y.length
  let v0 : Vec := List.replicate N 0
  match p.lbdaArg with
  | some lbda =>
    let xJ := p.solver (L1Norm_op lbda) v0 p.nbIter
    { est_ar_s := truncConv p.hrf (cumSum xJ.1) N,
      est_ai_s := cumSum xJ.1, est_i_s := xJ.1, J := xJ.2,
      R := none, G := none }
  | none =>
    let sigma := mad_daub_noise_est p.w1 p.w0 p.y madC
    let s0 : CSt := ⟨1, [], [], [], [], false⟩
    let sf := cLoop p sigma v0 p.nbIter 0 s0
    let lbda := 1 / (2 * sf.alpha)
    let x := (p.solver (L1Norm_op lbda) v0 9999).1
    { est_ar_s := truncConv p.hrf (cumSum x) N,
      est_ai_s := cumSum x, est_i_s := x, J := sf.J,
      R := some sf.R, G := some sf.G }

/-- deconvolution (lines 22-154): the wind validation raises a ValueError
for wind < 2 before any other work; otherwise the body runs. -/
def deconvolution (p : CParams) : Except String COut :=
  if p.wind < 2 then Except.error "wind should at least 2"
  else Except.ok (deconvBody p)

/-- A floating-point-like value for the non-finite-propagation analysis:
some q is a finite value, none stands for a non-finite value (NaN or
infinity).  Arithmetic propagates non-finite operands and comparisons with a
non-finite operand are false, as in IEEE arithmetic. -/
abbrev QN := Option ℚ

/-- Addition with non-finite propagation. -/
def qnAdd : QN → QN → QN
  | some a, some b => some (a + b)
  | _, _ => none

/-- Subtraction with non-finite propagation. -/
def qnSub : QN → QN → QN
  | some a, some b => some (a - b)
  | _, _ => none

/-- Multiplication with non-finite propagation. -/
def qnMul : QN → QN → QN
  | some a, some b => some (a * b)
  | _, _ => none

/-- Division with non-finite propagation; a zero denominator yields a
non-finite value. -/
def qnDiv : QN → QN → QN
  | some a, some b => if b = 0 then none else some (a / b)
  | _, _ => none

/-- Absolute value with non-finite propagation. -/
def qnAbs : QN → QN
  | some a => some |a|
  | none => none

/-- Strict comparison; false whenever an operand is non-finite. -/
def qnLt : QN → QN → Bool
  | some a, some b => decide (a < b)
  | _, _ => false

/-- Sum of a list of QN values. -/
def qnSum (l : List QN) : QN := l.foldr qnAdd (some 0)

/-- np.mean over QN values; the mean of an empty list is NaN. -/
def meanQN (l : List QN) : QN :=
  if l.length = 0 then none else qnDiv (qnSum l) (some (l.length : ℚ))

/-- Elementwise subtraction over QN signals. -/
def vsubN (a b : List QN) : List QN := List.zipWith qnSub a b

/-- Σ x² over a QN signal. -/
def sumSqN (a : List QN) : QN := qnSum (a.map (fun t => qnMul t t))

/-- The running cumulative sum over a QN signal (DiscretInteg.op). -/
def cumSumN (x : List QN) : List QN :=
  (List.range x.length).map (fun n => qnSum (x.take (n + 1)))

/-- Truncated linear convolution over QN signals (Conv.op). -/
def truncConvN (k x : List QN) (N : ℕ) : List QN :=
  (List.range N).map (fun n =>
    qnSum ((List.range (n + 1)).map
      (fun i => qnMul (k.getD i (some 0)) (x.getD (n - i) (some 0)))))

/-- grad.residual over QN signals: Σ(H(x) - y)² for the composed operator. -/
def residualN (hrf y x : List QN) : QN :=
  sumSqN (vsubN (truncConvN hrf (cumSumN x) y.length) y)

/-- The state of the auto-lambda inner sub-loop over QN values, with a count
of the iterations actually executed. -/
structure InnerStN where
  alpha : QN
  lbda : QN
  lAlpha : List QN
  stopped : Bool
  iters : ℕ
deriving DecidableEq

/-- One iteration of the auto-lambda inner sub-loop of blind_deconvolution
(lines 485-521) over the non-finite-aware value domain: exactly the update
sequence of innerStepP, with IEEE-style propagation.  No step inspects
finiteness, and a comparison against a non-finite value is false. -/
def innerStepN (solver : QN → List QN → List QN) (y hrf : List QN)
    (wind : ℕ) (es : Bool) (sigma : QN) (v0 : List QN) (j : ℕ)
    (s : InnerStN) : InnerStN :=
  let lbda := qnDiv (some 1) (qnMul (some 2) s.alpha)
  let x := solver lbda v0
  let alpha := qnAdd s.alpha (qnMul (some muBD)
    (qnSub (residualN hrf y x) (qnMul (some (y.length : ℚ)) (qnMul sigma sigma))))
  let lA0 := s.lAlpha ++ [alpha]
  let lA := if lA0.length > wind then lA0.drop 1 else lA0
  let stop := es && (decide (j > 2) &&
    (let swl := wind / 2
     let old_it := meanQN (pyDropLast lA swl)
     let new_it := meanQN (pyLastK lA swl)
     qnLt (qnDiv (qnAbs (qnSub new_it old_it)) (qnAdd (qnAbs new_it) (some eps10)))
       (some (1 / 100))))
  { alpha := alpha, lbda := lbda, lAlpha := lA, stopped := stop,
    iters := s.iters + 1 }

/-- The auto-lambda inner sub-loop over the non-finite-aware domain. -/
def innerLoopN (solver : QN → List QN → List QN) (y hrf : List QN)
    (wind : ℕ) (es : Bool) (sigma : QN) (v0 : List QN) :
    ℕ → ℕ → InnerStN → InnerStN
  | 0, _, s => s
  | fuel + 1, j, s =>
    let s' := innerStepN solver y hrf wind es sigma v0 j s
    if s'.stopped then s' else innerLoopN solver y hrf wind es sigma v0 fuel (j + 1) s'

/-- A concrete auto-lambda driver input with a caller-supplied sigma = 2
whose mad_daub_noise_est estimate of the observed signal is 0 (the level-1
detail coefficients are the constant list [1, 1, 1]); used to examine which
noise level the alpha update consumes. -/
def pC1 : DParams :=
  { y := [1], hrf_func := fun _ => [1], solver := fun _ _ _ _ => [0],
    optimizer := fun _ t => t, lbdaArg := none, sigmaArg := some 2,
    w1 := fun _ => Except.ok ([], [1, 1, 1]), w0 := id, theta0 := [],
    initIS := none, nbIter := 1, earlyStop := false, wind := 24,
    tol := 1 / 10 ^ 24 }

/-- A concrete fixed-lambda driver input (lbda = 1, observed signal [3],
solver result [1]); used to examine the value appended to the joint cost
trace. -/
def pC3 : DParams :=
  { y := [3], hrf_func := fun _ => [1], solver := fun _ _ _ _ => [1],
    optimizer := fun _ t => t, lbdaArg := some 1, sigmaArg := none,
    w1 := fun _ => Except.ok ([], []), w0 := id, theta0 := [],
    initIS := none, nbIter := 1, earlyStop := false, wind := 24,
    tol := 1 / 10 ^ 24 }

/-- A concrete auto-lambda driver input on which the inner sub-loop
early-stopping test fires at j = 3 during the first outer iteration (sigma
= 1 keeps alpha constant, wind = 4): the cost trace then has a single entry
while the break diagnostic indexes entry j. -/
def pC9 : DParams :=
  { y := [1], hrf_func := fun _ => [1], solver := fun _ _ _ _ => [0],
    optimizer := fun _ t => t, lbdaArg := none, sigmaArg := some 1,
    w1 := fun _ => Except.ok ([], []), w0 := id, theta0 := [],
    initIS := none, nbIter := 1, earlyStop := true, wind := 4,
    tol := 1 / 10 ^ 24 }

/-- The strictly decreasing cost trace used for the early-stopping analysis:
seven entries falling by one percent of the initial value each iteration. -/
def jDec : List ℚ := [1, 99/100, 98/100, 97/100, 96/100, 95/100, 94/100]

end Pybold

namespace Pybold

/-- Multiplication by a non-finite value is non-finite. -/
theorem qnMul_none_right (a : QN) : qnMul a none = none := by cases a <;> rfl

/-- Subtraction of a non-finite value is non-finite. -/
theorem qnSub_none_right (a : QN) : qnSub a none = none := by cases a <;> rfl

/-- Addition of a non-finite value is non-finite. -/
theorem qnAdd_none_right (a : QN) : qnAdd a none = none := by cases a <;> rfl

/-- With a non-finite sigma, one inner iteration makes alpha non-finite
(regardless of the solver result), never stops the loop when early stopping
is disabled, and increments the iteration count. -/
theorem innerStepN_nan (solver : QN → List QN → List QN) (y hrf : List QN)
    (wind : ℕ) (v0 : List QN) (j : ℕ) (s : InnerStN) :
    (innerStepN solver y hrf wind false none v0 j s).alpha = none ∧
    (innerStepN solver y hrf wind false none v0 j s).stopped = false ∧
    (innerStepN solver y hrf wind false none v0 j s).iters = s.iters + 1 := by
  refine ⟨?_, rfl, rfl⟩
  simp only [innerStepN]
  rw [qnMul_none_right, qnMul_none_right, qnSub_none_right, qnMul_none_right,
    qnAdd_none_right]

/-- Dropping the last k entries of m copies of v leaves m - k copies. -/
theorem pyDropLast_replicate (n k : ℕ) (v : ℚ) (hk : k ≠ 0) :
    pyDropLast (List.replicate n v) k = List.replicate (n - k) v := by
  rw [pyDropLast, if_neg hk, List.length_replicate, List.take_replicate]
  congr 1
  omega

/-- Keeping the last k entries of n copies of v leaves k copies. -/
theorem pyLastK_replicate (n k : ℕ) (v : ℚ) (hk : k ≠ 0) (hkn : k ≤ n) :
    pyLastK (List.replicate n v) k = List.replicate k v := by
  rw [pyLastK, if_neg hk, List.length_replicate, List.drop_replicate]
  congr 1
  omega

/-- The mean of m copies of v is v. -/
theorem meanQ_replicate (m : ℕ) (v : ℚ) (hm : m ≠ 0) :
    meanQ (List.replicate m v) = v := by
  simp only [meanQ, List.sum_replicate, List.length_replicate, nsmul_eq_mul]
  rw [mul_comm, mul_div_assoc, div_self (by exact_mod_cast hm), mul_one]

/-- C4: blind_deconvolution raises its kernel-model validation error exactly
when a non-empty proper subset of the three kernel-model arguments is left
unspecified; with all three unspecified the internal defaults are
substituted, and with all three supplied the given triple is used with no
error. -/
theorem C4_hrf_model_validation {P F C : Type} (defP : P) (defF : F) (defC : C)
    (p? : Option P) (f? : Option F) (c? : Option C) :
    (isErr (hrfModelInit defP defF defC p? f? c?) =
      (!(p?.isNone && f?.isNone && c?.isNone) &&
        (p?.isNone || f?.isNone || c?.isNone))) ∧
    hrfModelInit defP defF defC none none none = Except.ok (defP, defF, defC) ∧
    (∀ a b c, hrfModelInit defP defF defC (some a) (some b) (some c) =
      Except.ok (a, b, c)) := by
  refine ⟨?_, rfl, fun a b c => rfl⟩
  cases p? <;> cases f? <;> cases c? <;> rfl

/-- C10: deconvolution raises its ValueError exactly when wind < 2; the
validation is the first statement of the function, so for wind at least 2 it
never raises. -/
theorem C10_wind_validation (p : CParams) :
    isErr (deconvolution p) = decide (p.wind < 2) ∧
    deconvolution p =
      (if p.wind < 2 then Except.error "wind should at least 2"
       else Except.ok (deconvBody p)) := by
  refine ⟨?_, rfl⟩
  by_cases h : p.wind < 2 <;> simp [deconvolution, isErr, h]

/-- C6: mad_daub_noise_est applies the scaled median absolute deviation,
median of the absolute deviations from the median divided by 0.6744, to the
first-level detail coefficients of the one-level wavelet decomposition when
it succeeds, and to the coefficients of the level-0 decomposition when the
one-level decomposition raises. -/
theorem C6_mad_daub (w1 : Vec → Except Unit (Vec × Vec)) (w0 : Vec → Vec)
    (x : Vec) :
    madC = 6744 / 10000 ∧
    (∀ cA cD, w1 x = Except.ok (cA, cD) →
      mad_daub_noise_est w1 w0 x madC =
        medianQ (cD.map (fun t => |t - medianQ cD|)) / madC) ∧
    (∀ e, w1 x = Except.error e →
      mad_daub_noise_est w1 w0 x madC =
        medianQ ((w0 x).map (fun t => |t - medianQ (w0 x)|)) / madC) := by
  refine ⟨rfl, fun cA cD h => ?_, fun e h => ?_⟩
  · simp [mad_daub_noise_est, h, mad]
  · simp [mad_daub_noise_est, h, mad]

/-- C2 (amended): the outer early-stopping check of the driver fires at the
first eligible iteration idx = wind + 1 on an exactly constant positive cost
trace (and at no earlier iteration); and because the check compares the
signed relative change (new - old) / new against tol, it also fires at any
eligible iteration whenever the newer-half mean is positive and below the
older-half mean, in particular on a strictly decreasing trace - it does not
run to the iteration budget there. -/
theorem C2_early_stopping_amended :
    (∀ (idx wind : ℕ) (tol v : ℚ), 2 ≤ wind → 0 < tol → 0 < v →
      outerBreak (List.replicate (idx + 2) v) idx wind tol =
        decide (wind < idx)) ∧
    (∀ (J : List ℚ) (idx wind : ℕ) (tol : ℚ), wind < idx → 0 ≤ tol →
      0 < meanQ (pyLastK J (wind / 2)) →
      meanQ (pyLastK J (wind / 2)) < meanQ (pyDropLast J (wind / 2)) →
      outerBreak J idx wind tol = true) := by
  constructor
  · intro idx wind tol v hw ht hv
    have h1 : 1 ≤ wind / 2 := (Nat.one_le_div_iff (by norm_num)).mpr hw
    by_cases h : wind < idx
    · rw [outerBreak,
        pyDropLast_replicate (idx + 2) (wind / 2) v (by omega),
        pyLastK_replicate (idx + 2) (wind / 2) v (by omega) (by omega),
        meanQ_replicate (wind / 2) v (by omega),
        meanQ_replicate (idx + 2 - wind / 2) v (by omega)]
      simp [h, sub_self, zero_div, ht]
    · simp [outerBreak, h]
  · intro J idx wind tol h ht h0 hlt
    have hneg : (meanQ (pyLastK J (wind / 2)) - meanQ (pyDropLast J (wind / 2))) /
        meanQ (pyLastK J (wind / 2)) < tol :=
      lt_of_lt_of_le (div_neg_of_neg_of_pos (sub_neg.mpr hlt) h0) ht
    simp [outerBreak, h, hneg]

/-- C2 witness: at wind = 4 and tol = 1/1000, the constant trace of seven
entries fires at idx = 5 = wind + 1, and the strictly decreasing trace also
fires there. -/
theorem C2_early_stopping_witness :
    outerBreak (List.replicate 7 (1 : ℚ)) 5 4 (1 / 1000) = decide (4 < 5) ∧
    outerBreak jDec 5 4 (1 / 1000) = true :=
  ⟨C2_early_stopping_amended.1 5 4 (1 / 1000) 1 (by norm_num) (by norm_num)
      (by norm_num),
   C2_early_stopping_amended.2 jDec 5 4 (1 / 1000) (by norm_num) (by norm_num)
      (by with_unfolding_all decide) (by with_unfolding_all decide)⟩

/-- C2 counterexample: jDec is strictly decreasing, every stepwise relative
change and the window-halves relative change exceed tol = 1/1000, the check
is not yet eligible at idx = 4, and yet it fires at idx = 5 - refuting the
claim that it does not fire on such a sequence. -/
theorem C2_counterexample :
    List.Pairwise (fun a b => b < a) jDec ∧
    List.Pairwise (fun a b => (a - b) / a > 1 / 1000) jDec ∧
    |meanQ (pyLastK jDec (4 / 2)) - meanQ (pyDropLast jDec (4 / 2))| /
      |meanQ (pyLastK jDec (4 / 2))| > 1 / 1000 ∧
    outerBreak jDec 4 4 (1 / 1000) = false ∧
    outerBreak jDec 5 4 (1 / 1000) = true := by with_unfolding_all decide

/-- C3 (amended): every value appended to the joint cost trace of
blind_deconvolution at an outer iteration equals
(Σ(predicted - observed)² + lbda·‖innovation‖₁) / j0 + 1.0e-30, computed
from the post-iteration predicted signal, the observed signal, the lambda
variable of the driver and the innovation estimate, normalized by the
initial joint cost j0; the final post-loop append uses the same formula
without the 1.0e-30 term.  The un-normalized, halved form 0.5·r + lbda·g of
the claim appears only in the cost trace of deconvolution. -/
theorem C3_cost_append_amended (p : DParams) (sigma : ℚ) (idx : ℕ)
    (s : DState) :
    (bodyCore p sigma idx s).1.J =
      s.J ++ [(sumSq (vsub (bodyCore p sigma idx s).1.est_ar_s p.y) +
        (bodyCore p sigma idx s).1.lbda *
          sumAbs (bodyCore p sigma idx s).1.est_i_s) / s.j0 + eps30] ∧
    (finalPhase p s).J =
      s.J ++ [(sumSq (vsub (finalPhase p s).est_ar_s p.y) +
        s.lbda * sumAbs (finalPhase p s).est_i_s) / s.j0] := by
  constructor
  · by_cases h : p.lbdaArg.isNone <;> simp [bodyCore, h]
  · simp [finalPhase]

/-- C3 counterexample: a fixed-lambda outer iteration with lbda = 1 whose
residual is 4 and sparsity term 1 appends (4 + 1)/9 + 1.0e-30 to the trace,
while the claimed formula 0.5·Σ(predicted - observed)² + lbda·‖innovation‖₁
evaluates to 3. -/
theorem C3_counterexample :
    (bodyCore pC3 0 0 (initState pC3)).1.J = [1, 5 / 9 + eps30] ∧
    1 / 2 * sumSq (vsub (bodyCore pC3 0 0 (initState pC3)).1.est_ar_s pC3.y) +
      (bodyCore pC3 0 0 (initState pC3)).1.lbda *
        sumAbs (bodyCore pC3 0 0 (initState pC3)).1.est_i_s = 3 ∧
    (5 / 9 + eps30 : ℚ) ≠ 3 := by
  refine ⟨?_, ?_, ?_⟩
  · norm_num [bodyCore, initState, pC3, cumSum, truncConv, sumSq, sumAbs, vsub,
      L1Norm_op, eps30, List.range_succ, List.getD]
  · norm_num [bodyCore, initState, pC3, cumSum, truncConv, sumSq, sumAbs, vsub,
      L1Norm_op, List.range_succ, List.getD]
  · norm_num [eps30]

/-- C1 (amended): each iteration of the auto-lambda inner sub-loop of
blind_deconvolution first sets lbda = 1/(2 alpha), runs one solver call with
the L1 proximity operator at that lbda, and then updates
alpha += mu (residual(x) - N sigma²) with the fixed rate mu = 1.0e-2, where
sigma is the caller-supplied sigma argument when one is given and the
mad_daub_noise_est estimate of the observed signal only otherwise. -/
theorem C1_inner_update_amended (p : DParams) (hrf v0 : Vec) (j : ℕ)
    (s : InnerSt) :
    (innerStepP p hrf (resolveSigma p) v0 j s).lbda = 1 / (2 * s.alpha) ∧
    (innerStepP p hrf (resolveSigma p) v0 j s).alpha =
      s.alpha + muBD * (residual hrf p.y
          (p.solver hrf (L1Norm_op (1 / (2 * s.alpha))) v0 1000) -
        (p.y.length : ℚ) *
          (p.sigmaArg.getD (mad_daub_noise_est p.w1 p.w0 p.y madC)) ^ 2) :=
  ⟨rfl, rfl⟩

/-- C1 counterexample: an auto-lambda driver input with caller-supplied
sigma = 2 while the mad_daub_noise_est estimate of its observed signal is 0;
one inner iteration from alpha = 1 produces alpha = 97/100 (using the
supplied sigma), whereas the update prescribed by the claim (sigma from
mad_daub_noise_est) would produce 101/100. -/
theorem C1_counterexample :
    resolveSigma pC1 = 2 ∧
    mad_daub_noise_est pC1.w1 pC1.w0 pC1.y madC = 0 ∧
    (innerStepP pC1 [1] (resolveSigma pC1) [0] 0 ⟨1, 1 / 2, [], false⟩).alpha =
      97 / 100 ∧
    1 + muBD * (residual [1] pC1.y
        (pC1.solver [1] (L1Norm_op (1 / (2 * 1))) [0] 1000) -
      (pC1.y.length : ℚ) *
        (mad_daub_noise_est pC1.w1 pC1.w0 pC1.y madC) ^ 2) = 101 / 100 ∧
    (97 / 100 : ℚ) ≠ 101 / 100 := by with_unfolding_all decide

/-- C5 (amended): the driver contains no finiteness check.  With early
stopping disabled (its default) the auto-lambda inner sub-loop always
executes its whole iteration budget, and a non-finite sigma makes alpha
non-finite from the first update on; the loop keeps iterating with the
non-finite alpha instead of aborting with the last known-good state. -/
theorem C5_no_divergence_guard (solver : QN → List QN → List QN)
    (y hrf : List QN) (wind : ℕ) (v0 : List QN) :
    ∀ (nb j : ℕ) (s : InnerStN),
      (innerLoopN solver y hrf wind false none v0 (nb + 1) j s).alpha = none ∧
      (innerLoopN solver y hrf wind false none v0 (nb + 1) j s).iters =
        s.iters + (nb + 1) := by
  intro nb
  induction nb with
  | zero =>
    intro j s
    have h := innerStepN_nan solver y hrf wind v0 j s
    simp only [innerLoopN, h.2.1, if_neg (by simp : ¬(false = true))]
    exact ⟨h.1, h.2.2⟩
  | succ n ih =>
    intro j s
    have h := innerStepN_nan solver y hrf wind v0 j s
    have hstep : innerLoopN solver y hrf wind false none v0 (n + 1 + 1) j s =
        innerLoopN solver y hrf wind false none v0 (n + 1) (j + 1)
          (innerStepN solver y hrf wind false none v0 j s) := by
      conv_lhs => rw [innerLoopN]
      simp [h.2.1]
    rw [hstep]
    exact ⟨(ih (j + 1) _).1, by rw [(ih (j + 1) _).2, h.2.2]; omega⟩

/-- C5 counterexample: with a non-finite sigma the inner sub-loop runs its
full budget of 3 iterations and ends with a non-finite alpha; it does not
abort after the first iteration and does not return the last known-good
alpha (which was 1). -/
theorem C5_counterexample :
    (innerLoopN (fun _ v0 => v0) [some 1] [some 1] 4 false none [some 0] 3 0
        ⟨some 1, some (1 / 2), [], false, 0⟩).alpha = none ∧
    (innerLoopN (fun _ v0 => v0) [some 1] [some 1] 4 false none [some 0] 3 0
        ⟨some 1, some (1 / 2), [], false, 0⟩).iters = 3 ∧
    (innerLoopN (fun _ v0 => v0) [some 1] [some 1] 4 false none [some 0] 3 0
        ⟨some 1, some (1 / 2), [], false, 0⟩).alpha ≠ some 1 := by
  with_unfolding_all decide

/-- Every outer iteration re-establishes the signal invariant: the
integrated signal is the cumulative sum of the innovation signal, and the
convolved signal is the current kernel convolved with the integrated
signal. -/
theorem bodyCore_inv (p : DParams) (sigma : ℚ) (idx : ℕ) (s : DState) :
    (bodyCore p sigma idx s).1.est_ai_s =
      cumSum (bodyCore p sigma idx s).1.est_i_s ∧
    (bodyCore p sigma idx s).1.est_ar_s =
      truncConv (bodyCore p sigma idx s).1.hrf
        (cumSum (bodyCore p sigma idx s).1.est_i_s) p.y.length := by
  by_cases h : p.lbdaArg.isNone <;> simp [bodyCore, h]

/-- The final deconvolution also establishes the signal invariant. -/
theorem finalPhase_inv (p : DParams) (s : DState) :
    (finalPhase p s).est_ai_s = cumSum (finalPhase p s).est_i_s ∧
    (finalPhase p s).est_ar_s =
      truncConv (finalPhase p s).hrf (cumSum (finalPhase p s).est_i_s)
        p.y.length := by
  simp [finalPhase]

/-- Every state recorded at the end of an executed outer iteration
satisfies the signal invariant. -/
theorem outerLoop_inv (p : DParams) (sigma : ℚ) :
    ∀ (fuel idx : ℕ) (s : DState),
      (outerLoop p sigma fuel idx s).2.Forall (fun t =>
        t.est_ai_s = cumSum t.est_i_s ∧
        t.est_ar_s = truncConv t.hrf (cumSum t.est_i_s) p.y.length) := by
  intro fuel
  induction fuel with
  | zero => intro idx s; simp [outerLoop]
  | succ n ih =>
    intro idx s
    simp only [outerLoop]
    by_cases h : (bodyCore p sigma idx s).2 = true
    · rw [if_pos h]
      simpa using bodyCore_inv p sigma idx s
    · rw [if_neg h]
      simp only [List.forall_cons]
      exact ⟨bodyCore_inv p sigma idx s, ih (idx + 1) _⟩

/-- C8: at the end of every executed outer iteration of blind_deconvolution
and in its returned outputs, the integrated signal equals the inclusive
cumulative sum of the innovation signal, and the convolved signal equals the
convolution of the current kernel with that integrated signal. -/
theorem C8_signal_invariant (p : DParams) :
    (blindDeconvTrace p).Forall (fun t =>
      t.est_ai_s = cumSum t.est_i_s ∧
      t.est_ar_s = truncConv t.hrf (cumSum t.est_i_s) p.y.length) ∧
    (blindDeconvRun p).est_ai_s = cumSum (blindDeconvRun p).est_i_s ∧
    (blindDeconvRun p).est_ar_s =
      truncConv (blindDeconvRun p).hrf (cumSum (blindDeconvRun p).est_i_s)
        p.y.length := by
  refine ⟨?_, ?_, ?_⟩
  · rw [blindDeconvTrace]
    exact outerLoop_inv p _ p.nbIter 0 (initState p)
  · rw [blindDeconvRun]
    exact (finalPhase_inv p _).1
  · rw [blindDeconvRun]
    exact (finalPhase_inv p _).2

/-- C9: at the concrete input pC9 (auto-lambda mode, early stopping on, wind
= 4, noise level matching the residual so that the inner sub-loop stops at j
= 3 during the first outer iteration), the run with verbosity 2 raises an
IndexError from the break diagnostic that indexes the cost trace at the
inner counter, while the identical run with verbosity 0 returns normally:
the verbosity level changes the result. -/
theorem C9_verbose_changes_result :
    isErr (blindDeconvRunV pC9 2) = true ∧
    isErr (blindDeconvRunV pC9 0) = false := by
  set_option maxRecDepth 2000 in with_unfolding_all decide

/-- Sorting commutes with multiplication by a positive scalar. -/
theorem sort_map_mul (c : ℚ) (hc : 0 < c) (l : List ℚ) :
    (l.map (fun t => c * t)).insertionSort (fun a b => a ≤ b) =
      (l.insertionSort (fun a b => a ≤ b)).map (fun t => c * t) := by
  refine List.eq_of_perm_of_sorted ?_ (List.sorted_insertionSort _ _) ?_
  · exact (List.perm_insertionSort _ _).trans
      ((List.perm_insertionSort _ l).map _).symm
  · exact (List.sorted_insertionSort _ l).map (fun t => c * t)
      (fun a b hab => mul_le_mul_of_nonneg_left hab hc.le)

/-- Indexing with default 0 commutes with multiplication by a scalar. -/
theorem getD_map_mul (c : ℚ) (l : List ℚ) (i : ℕ) :
    (l.map (fun t => c * t)).getD i 0 = c * l.getD i 0 := by
  induction l generalizing i with
  | nil => simp
  | cons a t ih =>
    cases i with
    | zero => rfl
    | succ n => simpa using ih n

/-- The median commutes with multiplication by a positive scalar. -/
theorem medianQ_map_mul (c : ℚ) (hc : 0 < c) (l : List ℚ) :
    medianQ (l.map (fun t => c * t)) = c * medianQ l := by
  simp only [medianQ, List.length_map, sort_map_mul c hc l, getD_map_mul]
  split_ifs with h1 h2
  · exact (mul_zero c).symm
  · rfl
  · ring

/-- The scaled median absolute deviation is positively homogeneous. -/
theorem mad_map_mul (c : ℚ) (hc : 0 < c) (x : List ℚ) (c0 : ℚ) :
    mad (x.map (fun t => c * t)) c0 = c * mad x c0 := by
  rw [mad, mad, medianQ_map_mul c hc x]
  have hdev : (x.map (fun t => c * t)).map
        (fun t => |t - c * medianQ x|) =
      (x.map (fun t => |t - medianQ x|)).map (fun t => c * t) := by
    rw [List.map_map, List.map_map]
    refine List.map_congr_left (fun a _ => ?_)
    show |c * a - c * medianQ x| = c * |a - medianQ x|
    rw [← mul_sub, abs_mul, abs_of_pos hc]
  rw [hdev, medianQ_map_mul c hc, mul_div_assoc]

/-- C7: the noise-level estimator is positively scale equivariant: when the
wavelet decompositions (external black boxes) send the scaled signal to the
scaled coefficients, mad_daub_noise_est of c·x equals c times
mad_daub_noise_est of x for every c > 0. -/
theorem C7_scale_equivariance (w1 : Vec → Except Unit (Vec × Vec))
    (w0 : Vec → Vec) (x : Vec) (c : ℚ) (hc : 0 < c)
    (h1 : ∀ cA cD, w1 x = Except.ok (cA, cD) →
      w1 (x.map (fun t => c * t)) =
        Except.ok (cA.map (fun t => c * t), cD.map (fun t => c * t)))
    (h2 : ∀ e, w1 x = Except.error e →
      ∃ e2, w1 (x.map (fun t => c * t)) = Except.error e2)
    (h3 : w0 (x.map (fun t => c * t)) = (w0 x).map (fun t => c * t)) :
    mad_daub_noise_est w1 w0 (x.map (fun t => c * t)) madC =
      c * mad_daub_noise_est w1 w0 x madC := by
  cases hw : w1 x with
  | ok p =>
    obtain ⟨cA, cD⟩ := p
    simp only [mad_daub_noise_est, h1 cA cD hw, hw]
    exact mad_map_mul c hc cD madC
  | error e =>
    obtain ⟨e2, he2⟩ := h2 e hw
    simp only [mad_daub_noise_est, he2, hw, h3]
    exact mad_map_mul c hc (w0 x) madC

/-- C7 witness: scale equivariance at the concrete signal [1, 2, 3, 4], the
scalar 2 and a homogeneous decomposition returning the signal itself as
detail coefficients. -/
theorem C7_scale_equivariance_witness :
    mad_daub_noise_est (fun v => Except.ok ([], v)) (fun v => v)
        ([1, 2, 3, 4].map (fun t => (2 : ℚ) * t)) madC =
      2 * mad_daub_noise_est (fun v => Except.ok ([], v)) (fun v => v)
        [1, 2, 3, 4] madC :=
  C7_scale_equivariance (fun v => Except.ok ([], v)) (fun v => v) [1, 2, 3, 4]
    2 (by norm_num)
    (fun cA cD h => by
      injection h with h'
      injection h' with hA hD
      subst hA
      subst hD
      rfl)
    (fun e h => by simp at h)
    rfl

/-- C6 witness: the success and fallback cases at concrete coefficient
lists. -/
theorem C6_mad_daub_witness :
    mad_daub_noise_est (fun _ => Except.ok ([], [1, 2, 4])) id [5] madC =
      medianQ ([1, 2, 4].map (fun t => |t - medianQ [1, 2, 4]|)) / madC ∧
    mad_daub_noise_est (fun _ => Except.error ()) (fun v => v) [3, 7] madC =
      medianQ ([3, 7].map (fun t => |t - medianQ [3, 7]|)) / madC :=
  ⟨(C6_mad_daub (fun _ => Except.ok ([], [1, 2, 4])) id [5]).2.1 [] [1, 2, 4] rfl,
   (C6_mad_daub (fun _ => Except.error ()) (fun v => v) [3, 7]).2.2 () rfl⟩

end Pybold
